import Mathlib

/-!
Verification of the `zampie_utils` task-mapping subsystem
(`zampie_utils/async_utils.py`), the logger level router
(`zampie_utils/logger.py`) and their error-handling policy.

The Python value universe is embedded as the first-order data type `Val`
(ints, strings, None, tuples/lists, string-keyed dicts).  A target function
is a Lean function from positional arguments and keyword arguments to
`Except String Val`: a raised Python exception is `Except.error msg` with
`msg` playing the role of `str(e)`.  Thread-pool completion order is made
explicit: the concurrent collection loop (`for future in as_completed(...)`)
is parametrised by the list of task indices in completion order.
-/

namespace ZUtils

/-- First-order Python values: int, str, None, tuple/list, dict with string
keys.  `tuple` covers both Python `tuple` and `list` (the source treats them
identically via `isinstance(item, (tuple, list))`). -/
inductive Val where
  | int : Int → Val
  | str : String → Val
  | none : Val
  | tuple : List Val → Val
  | dict : List (String × Val) → Val
  | obj : Val

/-- Python type name of a value, as used in error message interpolation.
`obj` stands for an opaque non-data object (such as a function reference
reaching an argument position). -/
def pyTypeName : Val → String
  | .int _ => "int"
  | .str _ => "str"
  | .none => "NoneType"
  | .tuple _ => "tuple"
  | .dict _ => "dict"
  | .obj => "function"

/-- Keyword arguments: a string-keyed association list. -/
def Kwargs := List (String × Val)

/-- A target function: receives positional and keyword arguments and either
returns a value or raises (`Except.error` carries `str(e)`). -/
def Func := List Val → List (String × Val) → Except String Val

/-- Python `key in d` membership test on a dict. -/
def hasKey (m : List (String × Val)) (k : String) : Bool :=
  m.any (fun p => p.1 = k)

/-- Python `d[key]` lookup (first binding); `Val.none` as an unreachable
default when the key is known present. -/
def getKeyD (m : List (String × Val)) (k : String) : Val :=
  ((m.find? (fun p => p.1 = k)).map Prod.snd).getD Val.none

/-- Python iterable star-unpacking `f(*x)`: a tuple/list yields its elements,
a string yields its characters, a dict yields its keys, anything else raises
`TypeError`. -/
def starUnpack : Val → Except String (List Val)
  | .tuple xs => .ok xs
  | .str s => .ok (s.toList.map (fun c => .str (String.mk [c])))
  | .dict m => .ok (m.map (fun p => .str p.1))
  | v => .error ("TypeError: argument after * must be an iterable, not " ++ pyTypeName v)

/-- Python mapping double-star-unpacking `f(**x)`: a dict yields its
bindings, anything else raises `TypeError`. -/
def kwUnpack : Val → Except String (List (String × Val))
  | .dict m => .ok m
  | v => .error ("TypeError: argument after ** must be a mapping, not " ++ pyTypeName v)

/-- The dispatcher `submit_task(func, item, unpack_args, unpack_kwargs)` from
`async_utils.py`: decides, from the runtime shape of `item`, how to invoke
`func`.  Mirrors the source if-chain: dict with both reserved keys, dict with
`args` only, dict with `kwargs` only, plain dict (per `unpack_kwargs`),
tuple/list (per `unpack_args`), scalar. -/
def submit_task (func : Func) (item : Val) (unpack_args unpack_kwargs : Bool) :
    Except String Val :=
  match item with
  | .dict m =>
    if hasKey m "args" && hasKey m "kwargs" then
      match starUnpack (getKeyD m "args") with
      | .error e => .error e
      | .ok a =>
        match kwUnpack (getKeyD m "kwargs") with
        | .error e => .error e
        | .ok k => func a k
    else if hasKey m "args" then
      match starUnpack (getKeyD m "args") with
      | .error e => .error e
      | .ok a => func a []
    else if hasKey m "kwargs" then
      match kwUnpack (getKeyD m "kwargs") with
      | .error e => .error e
      | .ok k => func [] k
    else if unpack_kwargs then
      func [] m
    else
      func [Val.dict m] []
  | .tuple xs =>
    if unpack_args then func xs [] else func [Val.tuple xs] []
  | v => func [v] []

/-- Modelled from the spec: §4.1 invocation-shape resolver, transcribed from
the six priority-ordered rules of the spec.  Produces the one invocation form
(positional arguments, keyword arguments) for an item; unpacking a
malformed reserved-key value propagates the `TypeError` of the unpacking
step. -/
def resolve_shape_spec (item : Val) (unpack_args unpack_kwargs : Bool) :
    Except String (List Val × List (String × Val)) :=
  match item with
  | .dict m =>
    if hasKey m "args" && hasKey m "kwargs" then
      match starUnpack (getKeyD m "args") with
      | .error e => .error e
      | .ok a =>
        match kwUnpack (getKeyD m "kwargs") with
        | .error e => .error e
        | .ok k => .ok (a, k)
    else if hasKey m "args" then
      match starUnpack (getKeyD m "args") with
      | .error e => .error e
      | .ok a => .ok (a, [])
    else if hasKey m "kwargs" then
      match kwUnpack (getKeyD m "kwargs") with
      | .error e => .error e
      | .ok k => .ok ([], k)
    else if unpack_kwargs then
      .ok ([], m)
    else
      .ok ([Val.dict m], [])
  | .tuple xs =>
    if unpack_args then .ok (xs, []) else .ok ([Val.tuple xs], [])
  | v => .ok ([v], [])

/-- C2: `submit_task` resolves every item to exactly one invocation form,
following the priority order of spec §4.1 (reserved-key dict branches before
the generic dict branch, which obeys `unpack_kwargs`; tuple/list per
`unpack_args`; any other value as the single positional argument), and
invokes the target function on exactly that form.  The resolution
`resolve_shape_spec` is a pure total function of the item and the two
flags. -/
theorem submit_task_resolves_shape (func : Func) (item : Val)
    (ua uk : Bool) :
    submit_task func item ua uk =
      match resolve_shape_spec item ua uk with
      | .ok pk => func pk.1 pk.2
      | .error e => .error e := by
  cases item <;> simp only [submit_task, resolve_shape_spec]
  case dict m =>
    by_cases h1 : (hasKey m "args" && hasKey m "kwargs") = true
    · simp only [h1, if_true]
      cases starUnpack (getKeyD m "args") <;> simp
      cases kwUnpack (getKeyD m "kwargs") <;> simp
    · simp only [h1]
      by_cases h2 : hasKey m "args" = true
      · simp only [h2, if_true, if_false]
        cases starUnpack (getKeyD m "args") <;> simp
      · simp only [h2]
        by_cases h3 : hasKey m "kwargs" = true
        · simp only [h3, if_true, if_false]
          cases kwUnpack (getKeyD m "kwargs") <;> simp
        · simp only [h3]
          cases uk <;> simp
  case tuple xs =>
    cases ua <;> simp

/-- The Python test `error_return_value == "error_log"` from the error
branches of `sequential_map`, `parallel_map` and `parse_and_execute`. -/
def isErrorLog : Val → Bool
  | .str s => s == "error_log"
  | _ => false

/-- The substitute recorded in the result slot of a failing item when
`raise_on_error=False`: the stringified error when the configured value is
the sentinel string `"error_log"`, the configured value itself otherwise. -/
def errorSubstitute (error_return_value : Val) (e : String) : Val :=
  if isErrorLog error_return_value then .str e else error_return_value

/-- The function `sequential_map(func, items, ...)` from `async_utils.py`, display
parameters (progress bar, description, log level) dropped: the three
progress branches of the source run the identical per-item loop.  On a
per-item failure: re-raise when `raise_on_error`, else record the
substitute and continue. -/
def sequential_map (func : Func) (items : List Val)
    (unpack_args unpack_kwargs raise_on_error : Bool)
    (error_return_value : Val) : Except String (List Val) :=
  match items with
  | [] => .ok []
  | item :: rest =>
    match submit_task func item unpack_args unpack_kwargs with
    | .ok r =>
      (sequential_map func rest unpack_args unpack_kwargs raise_on_error
        error_return_value).map (r :: ·)
    | .error e =>
      if raise_on_error then .error e
      else
        (sequential_map func rest unpack_args unpack_kwargs raise_on_error
          error_return_value).map (errorSubstitute error_return_value e :: ·)

/-- The `for future in as_completed(future_to_index)` collection loop shared
by `parallel_map` and `parallel_execute`: `outcomes i` is the future of task
`i`, `order` lists task indices in completion order, `results` is the
pre-sized slot container.  A failing future re-raises under
`raise_on_error`, else writes the substitute into its slot. -/
def processCompleted (outcomes : Nat → Except String Val)
    (raise_on_error : Bool) (error_return_value : Val) :
    List Nat → List Val → Except String (List Val)
  | [], results => .ok results
  | i :: rest, results =>
    match outcomes i with
    | .ok r =>
      processCompleted outcomes raise_on_error error_return_value rest
        (results.set i r)
    | .error e =>
      if raise_on_error then .error e
      else
        processCompleted outcomes raise_on_error error_return_value rest
          (results.set i (errorSubstitute error_return_value e))

/-- The function `parallel_map(func, items, ..., max_workers, ...)` from
`async_utils.py`: with `max_workers ≤ 1` it delegates to `sequential_map`;
otherwise all items are submitted up front tagged with their index and
collected in completion order `order` into a `[None] * len(items)` slot
container. -/
def parallel_map (func : Func) (items : List Val)
    (unpack_args unpack_kwargs : Bool) (max_workers : Int)
    (raise_on_error : Bool) (error_return_value : Val)
    (order : List Nat) : Except String (List Val) :=
  if max_workers ≤ 1 then
    sequential_map func items unpack_args unpack_kwargs raise_on_error
      error_return_value
  else
    processCompleted
      (fun i => submit_task func (items.getD i Val.none) unpack_args unpack_kwargs)
      raise_on_error error_return_value order
      (List.replicate items.length Val.none)

/-- The outcome recorded for one item under the substitute policy: the
return value of the function on success, the error substitute on failure. -/
def outcome (func : Func) (unpack_args unpack_kwargs : Bool)
    (error_return_value : Val) (item : Val) : Val :=
  match submit_task func item unpack_args unpack_kwargs with
  | .ok r => r
  | .error e => errorSubstitute error_return_value e

/-- The slot value of the completion loop for task `i` under the substitute
policy. -/
def slotValue (outcomes : Nat → Except String Val) (error_return_value : Val)
    (i : Nat) : Val :=
  match outcomes i with
  | .ok r => r
  | .error e => errorSubstitute error_return_value e

/-- Writing the slot value of each completed task into its index, in completion
order. -/
def writeAll (f : Nat → Val) : List Nat → List Val → List Val
  | [], results => results
  | i :: rest, results => writeAll f rest (results.set i (f i))

theorem processCompleted_substitute (outcomes : Nat → Except String Val)
    (erv : Val) (order : List Nat) (results : List Val) :
    processCompleted outcomes false erv order results =
      .ok (writeAll (slotValue outcomes erv) order results) := by
  induction order generalizing results with
  | nil => rfl
  | cons i rest ih =>
    simp only [processCompleted, writeAll, slotValue]
    cases h : outcomes i <;> simp [h, ih]

theorem writeAll_length (f : Nat → Val) (order : List Nat)
    (results : List Val) :
    (writeAll f order results).length = results.length := by
  induction order generalizing results with
  | nil => rfl
  | cons i rest ih => simp [writeAll, ih]

theorem writeAll_getD (f : Nat → Val) (order : List Nat)
    (results : List Val) (j : Nat) (d : Val) (hj : j < results.length) :
    (writeAll f order results).getD j d =
      if j ∈ order then f j else results.getD j d := by
  induction order generalizing results with
  | nil => simp [writeAll]
  | cons i rest ih =>
    simp only [writeAll]
    rw [ih (results.set i (f i)) (by simpa using hj)]
    by_cases hmem : j ∈ rest
    · rw [if_pos hmem, if_pos (List.mem_cons_of_mem i hmem)]
    · rw [if_neg hmem]
      by_cases hij : j = i
      · subst hij
        rw [if_pos (List.mem_cons_self j rest)]
        rw [List.getD_eq_getElem?_getD, List.getElem?_set_eq_of_lt _ hj]
        rfl
      · rw [if_neg (by simp [List.mem_cons, hij, hmem])]
        rw [List.getD_eq_getElem?_getD, List.getD_eq_getElem?_getD,
          List.getElem?_set_ne (fun h => hij h.symm)]

/-- Under the substitute policy, the completion loop over a pre-sized
container fills slot `j` with the outcome of task `j`, for every completion
order covering all indices. -/
theorem writeAll_covering (f : Nat → Val) (order : List Nat) (n : Nat)
    (d : Val) (hcov : ∀ j, j < n → j ∈ order) :
    writeAll f order (List.replicate n d) = (List.range n).map f := by
  apply List.ext_getElem
  · simp [writeAll_length]
  · intro j h1 h2
    have hjn : j < n := by simpa [writeAll_length] using h1
    have := writeAll_getD f order (List.replicate n d) j d (by simpa using hjn)
    rw [if_pos (hcov j hjn)] at this
    calc (writeAll f order (List.replicate n d))[j]
          = (writeAll f order (List.replicate n d)).getD j d := by
            rw [List.getD_eq_getElem?_getD, List.getElem?_eq_getElem h1]
            rfl
        _ = f j := this
        _ = ((List.range n).map f)[j] := by simp [hjn]

/-- Map over indices equals map over items, reading item `j` with `getD`. -/
theorem range_map_getD {α : Type} (g : α → Val) (items : List α) (d : α) :
    (List.range items.length).map (fun i => g (items.getD i d)) =
      items.map g := by
  apply List.ext_getElem
  · simp
  · intro j h1 h2
    have hj : j < items.length := by simpa using h2
    simp [List.getD_eq_getElem?_getD, List.getElem?_eq_getElem hj]

theorem sequential_map_substitute (func : Func) (items : List Val)
    (ua uk : Bool) (erv : Val) :
    sequential_map func items ua uk false erv =
      .ok (items.map (outcome func ua uk erv)) := by
  induction items with
  | nil => rfl
  | cons item rest ih =>
    simp only [sequential_map, outcome, List.map_cons]
    cases h : submit_task func item ua uk <;> simp [h, ih, Except.map]

theorem parallel_map_substitute (func : Func) (items : List Val)
    (ua uk : Bool) (mw : Int) (erv : Val) (order : List Nat)
    (hcov : ∀ j, j < items.length → j ∈ order) :
    parallel_map func items ua uk mw false erv order =
      .ok (items.map (outcome func ua uk erv)) := by
  unfold parallel_map
  by_cases hmw : mw ≤ 1
  · simp [hmw, sequential_map_substitute]
  · simp only [hmw, if_false]
    rw [processCompleted_substitute]
    have : slotValue
        (fun i => submit_task func (items.getD i Val.none) ua uk) erv =
        fun i => outcome func ua uk erv (items.getD i Val.none) := by
      funext i
      simp [slotValue, outcome]
    rw [this, writeAll_covering _ _ _ _ hcov, range_map_getD]

/-- C1: for every finite input sequence and every task completion order
covering all indices, `parallel_map` under the substitute policy returns a
list of the length of the input in which slot `i` holds the outcome of item `i`
(the value of the function on item `i`, or its error substitute), independent of
the completion order. -/
theorem parallel_map_index_preservation (func : Func) (items : List Val)
    (ua uk : Bool) (mw : Int) (erv : Val) (order : List Nat)
    (hcov : ∀ j, j < items.length → j ∈ order) :
    ∃ res, parallel_map func items ua uk mw false erv order = .ok res ∧
      res.length = items.length ∧
      ∀ j, j < items.length →
        res.getD j Val.none = outcome func ua uk erv (items.getD j Val.none) := by
  refine ⟨items.map (outcome func ua uk erv),
    parallel_map_substitute func items ua uk mw erv order hcov, by simp, ?_⟩
  intro j hj
  rw [List.getD_eq_getElem?_getD, List.getD_eq_getElem?_getD,
    List.getElem?_eq_getElem (by simpa using hj), List.getElem?_eq_getElem hj]
  simp

/-- A doubling target function used as a concrete instance: succeeds on a
single int positional argument. -/
def doubleFn : Func := fun args kwargs =>
  match args, kwargs with
  | [Val.int x], [] => .ok (.int (2 * x))
  | _, _ => .error "TypeError"

/-- Witness for C1 at a concrete input: three items completed in the order
2, 0, 1 still land in their own slots. -/
theorem parallel_map_index_preservation_witness :
    ∃ res, parallel_map doubleFn [Val.int 1, Val.int 2, Val.int 3]
        false false 5 false Val.none [2, 0, 1] = .ok res ∧
      res.length = 3 ∧
      ∀ j, j < 3 → res.getD j Val.none =
        outcome doubleFn false false Val.none
          ([Val.int 1, Val.int 2, Val.int 3].getD j Val.none) :=
  parallel_map_index_preservation doubleFn [Val.int 1, Val.int 2, Val.int 3]
    false false 5 Val.none [2, 0, 1] (by decide)

/-- C3: with the substitute policy (`raise_on_error=False`), both
`sequential_map` and `parallel_map` return a full-length result list whose
slot `i` is the outcome of item `i`: the function value on success, the
configured substitute (or stringified error under the `"error_log"`
sentinel) on failure. -/
theorem map_error_substitution (func : Func) (items : List Val)
    (ua uk : Bool) (mw : Int) (erv : Val) (order : List Nat)
    (hcov : ∀ j, j < items.length → j ∈ order) :
    sequential_map func items ua uk false erv =
      .ok (items.map (outcome func ua uk erv)) ∧
    parallel_map func items ua uk mw false erv order =
      .ok (items.map (outcome func ua uk erv)) :=
  ⟨sequential_map_substitute func items ua uk erv,
   parallel_map_substitute func items ua uk mw erv order hcov⟩

/-- A target function raising on the input `2` and returning `10 * x`
otherwise, the `f_that_raises_on_second_item` example of the spec. -/
def raiseOnTwo : Func := fun args kwargs =>
  match args, kwargs with
  | [Val.int x], [] => if x = 2 then .error "boom" else .ok (.int (10 * x))
  | _, _ => .error "TypeError"

/-- Witness for C3: mapping over `[1, 2, 3]` with a function raising on `2`
and substitute `None` yields `[f(1), None, f(3)]`, sequentially and in
parallel. -/
theorem map_error_substitution_witness :
    sequential_map raiseOnTwo [Val.int 1, Val.int 2, Val.int 3]
      false false false Val.none =
      .ok [Val.int 10, Val.none, Val.int 30] ∧
    parallel_map raiseOnTwo [Val.int 1, Val.int 2, Val.int 3]
      false false 3 false Val.none [1, 2, 0] =
      .ok [Val.int 10, Val.none, Val.int 30] :=
  map_error_substitution raiseOnTwo [Val.int 1, Val.int 2, Val.int 3]
    false false 3 Val.none [1, 2, 0] (by decide)

/-- C5: with `max_workers ≤ 1`, `parallel_map` delegates entirely to
`sequential_map` and returns exactly its result for the same arguments,
for every configuration and completion order. -/
theorem parallel_map_delegates_sequential (func : Func) (items : List Val)
    (ua uk : Bool) (mw : Int) (roe : Bool) (erv : Val) (order : List Nat)
    (h : mw ≤ 1) :
    parallel_map func items ua uk mw roe erv order =
      sequential_map func items ua uk roe erv := by
  simp [parallel_map, h]

/-- Witness for C5 at `max_workers = 1`. -/
theorem parallel_map_delegates_sequential_witness :
    parallel_map doubleFn [Val.int 4, Val.int 5] false false 1 true Val.none
        [1, 0] =
      sequential_map doubleFn [Val.int 4, Val.int 5] false false true
        Val.none :=
  parallel_map_delegates_sequential doubleFn [Val.int 4, Val.int 5]
    false false 1 true Val.none [1, 0] (by decide)

/-- An element of a `parallel_execute` task descriptor: a callable or a
first-order data value. -/
inductive TupElem where
  | fn : Func → TupElem
  | v : Val → TupElem

/-- A `parallel_execute` task descriptor: a bare callable; a tuple/list; a
dict; or any other (non-callable, non-container) value such as an int. -/
inductive ZTask where
  | fn : Func → ZTask
  | tup : List TupElem → ZTask
  | dmap : List (String × TupElem) → ZTask
  | scalar : Val → ZTask

/-- Python call of a descriptor element: calling a non-callable data value
raises `TypeError`. -/
def callElem : TupElem → List Val → List (String × Val) → Except String Val
  | .fn f, args, kwargs => f args kwargs
  | .v x, _, _ => .error ("TypeError: " ++ pyTypeName x ++ " object is not callable")

/-- Membership `key in task` on a dict descriptor. -/
def hasTKey (m : List (String × TupElem)) (k : String) : Bool :=
  m.any (fun p => p.1 = k)

/-- Lookup `task.get(key, default)` on a dict descriptor. -/
def getTKeyD (m : List (String × TupElem)) (k : String) (d : TupElem) :
    TupElem :=
  ((m.find? (fun p => p.1 = k)).map Prod.snd).getD d

/-- Tuple-descriptor args coercion:
`if not isinstance(args, (tuple, list)): args = (args,)`.  A callable in
argument position is wrapped the same way; the wrapped callable is the
opaque object `Val.obj` in the embedding. -/
def coerceArgs : TupElem → List Val
  | .v (Val.tuple xs) => xs
  | .v x => [x]
  | .fn _ => [Val.obj]

/-- Dict-descriptor args coercion:
`if not isinstance(args, (tuple, list)): args = (args,) if args is not None
else ()` — unlike the tuple path, `None` maps to no arguments. -/
def coerceArgsDict : TupElem → List Val
  | .v (Val.tuple xs) => xs
  | .v Val.none => []
  | .v x => [x]
  | .fn _ => [Val.obj]

/-- Kwargs coercion: `if not isinstance(kwargs, dict): kwargs = {}`. -/
def coerceKwargs : TupElem → List (String × Val)
  | .v (Val.dict m) => m
  | _ => []

/-- The `try` body of `parse_and_execute` inside `parallel_execute`:
resolve the descriptor shape and invoke its callable; empty tuples, dicts
without the `func` key and unrecognized shapes raise `ValueError`. -/
def parse_task : ZTask → Except String Val
  | .fn f => f [] []
  | .tup [] => .error "任务元组不能为空"
  | .tup (t0 :: rest) =>
    callElem t0 (coerceArgs (rest.getD 0 (TupElem.v (Val.tuple []))))
      (coerceKwargs (rest.getD 1 (TupElem.v (Val.dict []))))
  | .dmap m =>
    if hasTKey m "func" then
      callElem (getTKeyD m "func" (TupElem.v Val.none))
        (coerceArgsDict (getTKeyD m "args" (TupElem.v (Val.tuple []))))
        (coerceKwargs (getTKeyD m "kwargs" (TupElem.v (Val.dict []))))
    else .error "任务字典必须包含 func 键"
  | .scalar x => .error ("不支持的任务格式: " ++ pyTypeName x)

/-- The inner `parse_and_execute(task, index)` from `parallel_execute`: the `try`
body with its `except` clause, which re-raises under `raise_on_error` and
otherwise returns the error substitute. -/
def parse_and_execute (raise_on_error : Bool) (error_return_value : Val)
    (task : ZTask) : Except String Val :=
  match parse_task task with
  | .ok r => .ok r
  | .error e =>
    if raise_on_error then .error e
    else .ok (errorSubstitute error_return_value e)

/-- Construction of `ThreadPoolExecutor(max_workers=mw)`: the standard library
raises `ValueError` unless `mw > 0`. -/
def threadPoolNew (max_workers : Int) : Except String Unit :=
  if max_workers ≤ 0 then
    .error "ValueError: max_workers must be greater than 0"
  else .ok ()

/-- The function `parallel_execute(tasks, max_workers, raise_on_error,
error_return_value)` from `async_utils.py`: empty task lists short-circuit
to `[]`; `max_workers` defaults to `len(tasks)`; the pool is constructed and
all tasks collected in completion order `order` into a `[None] * len(tasks)`
slot container. -/
def parallel_execute (tasks : List ZTask) (max_workers : Option Int)
    (raise_on_error : Bool) (error_return_value : Val) (order : List Nat) :
    Except String (List Val) :=
  if tasks.isEmpty then .ok []
  else
    match threadPoolNew (max_workers.getD (tasks.length : Int)) with
    | .error e => .error e
    | .ok _ =>
      processCompleted
        (fun i => parse_and_execute raise_on_error error_return_value
          (tasks.getD i (ZTask.scalar Val.none)))
        raise_on_error error_return_value order
        (List.replicate tasks.length Val.none)

/-- The outcome recorded for one task descriptor under the substitute
policy. -/
def taskOutcome (error_return_value : Val) (t : ZTask) : Val :=
  match parse_task t with
  | .ok r => r
  | .error e => errorSubstitute error_return_value e

theorem parse_and_execute_substitute_ok (erv : Val) (t : ZTask) :
    parse_and_execute false erv t = .ok (taskOutcome erv t) := by
  simp only [parse_and_execute, taskOutcome]
  cases parse_task t <;> simp

theorem parallel_execute_substitute (tasks : List ZTask) (erv : Val)
    (order : List Nat) (hcov : ∀ j, j < tasks.length → j ∈ order) :
    parallel_execute tasks none false erv order =
      .ok (tasks.map (taskOutcome erv)) := by
  cases tasks with
  | nil => rfl
  | cons t ts =>
    have hne : ((t :: ts : List ZTask).isEmpty) = false := rfl
    have hpool : threadPoolNew
        ((none : Option Int).getD ((t :: ts : List ZTask).length : Int)) =
        .ok () := by
      simp only [threadPoolNew, Option.getD]
      rw [if_neg]
      simp only [List.length_cons]
      have : (0 : Int) < ((ts.length + 1 : Nat) : Int) := by
        exact_mod_cast Nat.succ_pos ts.length
      omega
    simp only [parallel_execute, hne, Bool.false_eq_true, if_false, hpool]
    rw [processCompleted_substitute]
    have hsv : slotValue
        (fun i => parse_and_execute false erv
          ((t :: ts).getD i (ZTask.scalar Val.none))) erv =
        fun i => taskOutcome erv ((t :: ts).getD i (ZTask.scalar Val.none)) := by
      funext i
      rw [slotValue, parse_and_execute_substitute_ok]
    rw [hsv, writeAll_covering _ _ _ _ hcov, range_map_getD]

/-- C6: in `parallel_execute`, a malformed task descriptor — an empty
tuple/list, a dict without the `func` key, or a value of unrecognized
shape — produces a distinct `ValueError` that is raised or substituted per
the active error policy, never silently skipped, and never disturbs the
slots of well-formed sibling tasks. -/
theorem parallel_execute_malformed (entries : List (String × TupElem))
    (hf : hasTKey entries "func" = false) :
    parse_task (ZTask.tup []) = .error "任务元组不能为空" ∧
    parse_task (ZTask.dmap entries) = .error "任务字典必须包含 func 键" ∧
    (∀ x, parse_task (ZTask.scalar x) =
      .error ("不支持的任务格式: " ++ pyTypeName x)) ∧
    (∀ erv e t, parse_task t = .error e →
      parse_and_execute true erv t = .error e ∧
      parse_and_execute false erv t = .ok (errorSubstitute erv e)) ∧
    (∀ tasks erv order, (∀ j, j < tasks.length → j ∈ order) →
      parallel_execute tasks none false erv order =
        .ok (tasks.map (taskOutcome erv))) := by
  refine ⟨rfl, ?_, fun x => rfl, ?_, ?_⟩
  · simp [parse_task, hf]
  · intro erv e t h
    constructor <;> simp [parse_and_execute, h]
  · intro tasks erv order hcov
    exact parallel_execute_substitute tasks erv order hcov

/-- A zero-argument task returning `1`. -/
def constOneFn : Func := fun args kwargs =>
  match args, kwargs with
  | [], [] => .ok (.int 1)
  | _, _ => .error "TypeError"

/-- Witness for C6: a dict descriptor without `func`, and a batch mixing an
unrecognized scalar descriptor with a well-formed task — the malformed slot
is substituted, the slot of the sibling is untouched. -/
theorem parallel_execute_malformed_witness :
    parse_task (ZTask.tup []) = .error "任务元组不能为空" ∧
    parse_task (ZTask.dmap [("args", TupElem.v (Val.tuple []))]) =
      .error "任务字典必须包含 func 键" ∧
    (∀ x, parse_task (ZTask.scalar x) =
      .error ("不支持的任务格式: " ++ pyTypeName x)) ∧
    (∀ erv e t, parse_task t = .error e →
      parse_and_execute true erv t = .error e ∧
      parse_and_execute false erv t = .ok (errorSubstitute erv e)) ∧
    (∀ tasks erv order, (∀ j, j < tasks.length → j ∈ order) →
      parallel_execute tasks none false erv order =
        .ok (tasks.map (taskOutcome erv))) :=
  parallel_execute_malformed [("args", TupElem.v (Val.tuple []))] rfl

/-- C10: `parallel_execute` on an empty task list returns `[]` immediately
for every configuration; for a nonempty list the defaulted
`max_workers = len(tasks)` passes the positivity check of the pool constructor,
which a defaulted `max_workers = 0` (the empty-list case without the guard)
would fail. -/
theorem parallel_execute_empty_guard :
    (∀ mw roe erv order, parallel_execute [] mw roe erv order = .ok []) ∧
    (∀ tasks : List ZTask, tasks ≠ [] →
      threadPoolNew ((none : Option Int).getD (tasks.length : Int)) =
        .ok ()) ∧
    threadPoolNew ((0 : Nat) : Int) =
      .error "ValueError: max_workers must be greater than 0" := by
  refine ⟨fun mw roe erv order => rfl, ?_, rfl⟩
  intro tasks hne
  cases tasks with
  | nil => exact absurd rfl hne
  | cons t ts =>
    simp only [threadPoolNew, Option.getD]
    rw [if_neg]
    simp only [List.length_cons]
    have : (0 : Int) < ((ts.length + 1 : Nat) : Int) := by
      exact_mod_cast Nat.succ_pos ts.length
    omega

/-- Witness for C10 at concrete inputs. -/
theorem parallel_execute_empty_guard_witness :
    parallel_execute [] (some 3) false Val.none [] = .ok [] ∧
    threadPoolNew
        ((none : Option Int).getD (([ZTask.fn constOneFn].length : Nat) : Int)) =
      .ok () :=
  ⟨parallel_execute_empty_guard.1 (some 3) false Val.none [],
   parallel_execute_empty_guard.2.1 [ZTask.fn constOneFn]
     (List.cons_ne_nil _ _)⟩

/-- C9: with `raise_on_error=False`, the recorded substitute of a failing item in
`sequential_map`, `parallel_map` and `parallel_execute` is the stringified
exception when the configured value is the string `"error_log"`, and the
configured value itself for any other configured value — so the configured
literal `"error_log"` itself is never what gets recorded. -/
theorem error_log_sentinel (erv : Val) (e : String)
    (hne : isErrorLog erv = false) :
    errorSubstitute (Val.str "error_log") e = Val.str e ∧
    errorSubstitute erv e = erv ∧
    (∀ (func : Func) (item : Val) (ua uk : Bool) (erv2 : Val),
      submit_task func item ua uk = .error e →
      sequential_map func [item] ua uk false erv2 =
        .ok [errorSubstitute erv2 e] ∧
      parallel_map func [item] ua uk 2 false erv2 [0] =
        .ok [errorSubstitute erv2 e]) ∧
    (∀ (t : ZTask) (erv2 : Val), parse_task t = .error e →
      parallel_execute [t] none false erv2 [0] =
        .ok [errorSubstitute erv2 e]) := by
  refine ⟨by simp [errorSubstitute, isErrorLog], by simp [errorSubstitute, hne], ?_, ?_⟩
  · intro func item ua uk erv2 h
    have hcov : ∀ j, j < ([item] : List Val).length → j ∈ ([0] : List Nat) := by
      intro j hj
      have hj1 : j = 0 := Nat.lt_one_iff.mp (by simpa using hj)
      simp [hj1]
    constructor
    · rw [sequential_map_substitute]
      simp [outcome, h]
    · rw [parallel_map_substitute func [item] ua uk 2 erv2 [0] hcov]
      simp [outcome, h]
  · intro t erv2 h
    have hcov : ∀ j, j < ([t] : List ZTask).length → j ∈ [0] := by
      intro j hj
      have : j = 0 := by simpa using Nat.lt_one_iff.mp hj
      simp [this]
    rw [parallel_execute_substitute [t] erv2 [0] hcov]
    simp [taskOutcome, h]

/-- A task function that always raises `boom`. -/
def boomFn : Func := fun _ _ => .error "boom"

/-- Witness for C9: the sentinel configured value records the error string,
a non-sentinel configured value (`None`) records itself, across all three
executors. -/
theorem error_log_sentinel_witness :
    errorSubstitute (Val.str "error_log") "boom" = Val.str "boom" ∧
    errorSubstitute Val.none "boom" = Val.none ∧
    sequential_map raiseOnTwo [Val.int 2] false false false
        (Val.str "error_log") = .ok [Val.str "boom"] ∧
    parallel_map raiseOnTwo [Val.int 2] false false 2 false Val.none [0] =
      .ok [Val.none] ∧
    parallel_execute [ZTask.fn boomFn] none false Val.none [0] =
      .ok [Val.none] := by
  have h := error_log_sentinel Val.none "boom" rfl
  exact ⟨h.1, h.2.1,
    (h.2.2.1 raiseOnTwo (Val.int 2) false false (Val.str "error_log") rfl).1,
    (h.2.2.1 raiseOnTwo (Val.int 2) false false Val.none rfl).2,
    h.2.2.2 (ZTask.fn boomFn) Val.none rfl⟩

/-- One call through the logging sink of `logger.py`: either the no-op
handler (`self.none`, a bare lambda that touches nothing) or a record
handed to the underlying `logging.Logger` at a numeric level (DEBUG=10,
INFO=20, NOTICE=25, WARNING=30, ERROR=40, CRITICAL=50). -/
inductive LogAction where
  | noop : LogAction
  | record : Nat → String → LogAction
deriving DecidableEq

/-- The keys of the `Logger.log_router` dict built in `Logger.__init__`. -/
def log_router_levels : List String :=
  ["none", "debug", "info", "notice", "warning", "error", "critical"]

/-- Python `level.lower()` (ASCII, as used for level names). -/
def strLower (s : String) : String :=
  String.mk (s.toList.map Char.toLower)

/-- The method `Logger.log(level, message)` from `logger.py`:
`self.log_router.get(level.lower(), self.info)(message)` — route through
the handler table and fall back to the info handler for any level that is
not a router key. -/
def Logger_log (level : String) (message : String) : LogAction :=
  match strLower level with
  | "none" => .noop
  | "debug" => .record 10 message
  | "info" => .record 20 message
  | "notice" => .record 25 message
  | "warning" => .record 30 message
  | "error" => .record 40 message
  | "critical" => .record 50 message
  | _ => .record 20 message

/-- Counterexample to C7: `"silent"` is not a level of the sink — emitting
at `"silent"` is not a no-op at all, it falls back to the info handler and
produces an INFO-level record. -/
theorem silent_level_not_noop :
    ("silent" ∈ log_router_levels) = False ∧
    Logger_log "silent" "msg" = LogAction.record 20 "msg" ∧
    Logger_log "silent" "msg" ≠ LogAction.noop := by
  refine ⟨by simp [log_router_levels], rfl, by decide⟩

/-- C7 amended: the routed levels of the sink are `{none, debug, info, notice,
warning, error, critical}`; emitting at `"none"` is a no-op handler (not a
level filtered by configuration), while `"silent"` is not accepted and,
like every unrecognized level, falls back to a plain info emission. -/
theorem logger_level_routing (m : String) :
    Logger_log "none" m = .noop ∧
    Logger_log "debug" m = .record 10 m ∧
    Logger_log "info" m = .record 20 m ∧
    Logger_log "notice" m = .record 25 m ∧
    Logger_log "warning" m = .record 30 m ∧
    Logger_log "error" m = .record 40 m ∧
    Logger_log "critical" m = .record 50 m ∧
    "silent" ∉ log_router_levels ∧
    "none" ∈ log_router_levels ∧
    Logger_log "silent" m = .record 20 m := by
  refine ⟨rfl, rfl, rfl, rfl, rfl, rfl, rfl, by decide, by decide, rfl⟩

end ZUtils
